import Mathlib

/-!
# greeter_server: handler, metric vectors, interceptor and supervisor

A shallow embedding of `grpc-perf-lab/greeter_server/main.go`.

* The handler `SayHello`, the two package-level metric vectors
  `requestsProcessed` and `requestDuration`, and the control flow of `main`
  are translated from the source file.
* The Prometheus collectors (counter vector, histogram vector) and the
  grpc_prometheus interceptor are libraries that the source only calls.  They
  are modelled from the specification; every such definition says so in its
  doc comment.
* `float64` seconds are idealised as rationals (`ℚ`); `time.Duration` is an
  integer number of nanoseconds.  Clock readings are inputs of the functions
  that read the clock.
-/

namespace GreeterServer

/-! ## Labelled children of a metric vector -/

/-- Modelled from the spec: the label-to-metric map inside a Prometheus metric
vector (library code outside the repository), keyed by the value of the single
label `method`; a child is created lazily on first use and never removed
(spec §3, Registry). -/
abbrev Children (α : Type) := List (String × α)

/-- The child stored under a label value, if one has been created. -/
def Children.find {α : Type} : Children α → String → Option α
  | [], _ => none
  | (k, a) :: rest, l => if k = l then some a else Children.find rest l

/-- Modelled from the spec: the library method `WithLabelValues(l)` followed by
an update of the child: the child is created from `fresh` when it does not
exist yet, then `f` is applied to it (spec §4.3: unknown (name, labels) pairs
are created on demand). -/
def Children.update {α : Type} (fresh : α) (f : α → α) : Children α → String → Children α
  | [], l => [(l, f fresh)]
  | (k, a) :: rest, l =>
    if k = l then (k, f a) :: rest else (k, a) :: Children.update fresh f rest l

/-! ## Counter vector -/

/-- Modelled from the spec: the library type `prometheus.CounterVec`, a counter
vector with the single label `method`; each child is an integer value,
initially 0 (spec §3, Counter). -/
structure CounterVec where
  Name : String
  children : Children Nat
deriving DecidableEq

/-- Modelled from the spec: the library call `v.WithLabelValues(l).Inc()`, an
increment by 1 of the counter labelled `l` (spec §4.2 step 4, §4.3). -/
def CounterVec.Inc (v : CounterVec) (l : String) : CounterVec :=
  { v with children := Children.update 0 (· + 1) v.children l }

/-- The value a scrape reports for label `l`: the child's value, or 0 when no
child exists. -/
def CounterVec.value (v : CounterVec) (l : String) : Nat :=
  (Children.find v.children l).getD 0

/-! ## Histogram vector -/

/-- One bucket of a histogram: an upper bound (`none` is the top, infinite
bucket) and the cumulative count of observations not above it. -/
structure Bucket where
  upperBound : Option ℚ
  cumulativeCount : Nat
deriving DecidableEq

/-- Whether a bucket with the given upper bound receives an observation `d`:
its threshold is at least `d`; the infinite bucket receives everything. -/
def covers (ub : Option ℚ) (d : ℚ) : Bool :=
  match ub with
  | none => true
  | some t => decide (d ≤ t)

/-- Modelled from the spec: the library's histogram, with per-bucket cumulative
counts, a running sum and a total count (spec §3, Histogram). -/
structure Histogram where
  buckets : List Bucket
  sampleSum : ℚ
  sampleCount : Nat
deriving DecidableEq

/-- Modelled from the spec: the library's histogram constructor: no observation
yet, one bucket per given threshold, followed by the top (infinite) bucket
(spec §3, §8). -/
def newHistogram (bounds : List ℚ) : Histogram :=
  { buckets := bounds.map (fun t => ⟨some t, 0⟩) ++ [⟨none, 0⟩]
    sampleSum := 0
    sampleCount := 0 }

/-- Modelled from the spec: the library method `Observe(d)`: increment the count
of every bucket whose threshold is ≥ d, increment the total count, add d to the
running sum (spec §4.2 step 5). -/
def Histogram.Observe (h : Histogram) (d : ℚ) : Histogram :=
  { buckets := h.buckets.map
      (fun b => if covers b.upperBound d then { b with cumulativeCount := b.cumulativeCount + 1 } else b)
    sampleSum := h.sampleSum + d
    sampleCount := h.sampleCount + 1 }

/-- The upper bounds of a histogram, in bucket order. -/
def Histogram.upperBounds (h : Histogram) : List (Option ℚ) :=
  h.buckets.map Bucket.upperBound

/-- Modelled from the spec: the library type `prometheus.HistogramVec`, a
histogram vector with the single label `method`; `Buckets` are the thresholds
of its options. -/
structure HistogramVec where
  Name : String
  Buckets : List ℚ
  children : Children Histogram
deriving DecidableEq

/-- Modelled from the spec: the library call `v.WithLabelValues(l).Observe(d)`:
the histogram labelled `l`, created over the thresholds of the vector when
absent, observes `d` (spec §4.2 step 5, §4.3). -/
def HistogramVec.Observe (v : HistogramVec) (l : String) (d : ℚ) : HistogramVec :=
  { v with children := Children.update (newHistogram v.Buckets) (fun h => h.Observe d) v.children l }

/-- The histogram a scrape reports for label `l`, if that child exists. -/
def HistogramVec.child (v : HistogramVec) (l : String) : Option Histogram :=
  Children.find v.children l

/-! ## The metrics of the process -/

/-- Line 26: `requestsProcessed = promauto.NewCounterVec(...)`, no child yet. -/
def requestsProcessed : CounterVec :=
  { Name := "grpc_server_requests_processed_total", children := [] }

/-- Line 38: the `Buckets` of `requestDuration`, in seconds. -/
def Buckets : List ℚ :=
  [0.001, 0.005, 0.01, 0.025, 0.05, 0.1, 0.25, 0.5, 1, 2.5, 5, 10]

/-- Line 34: `requestDuration = promauto.NewHistogramVec(...)`, no child yet. -/
def requestDuration : HistogramVec :=
  { Name := "grpc_server_request_duration_seconds", Buckets := Buckets, children := [] }

/-- Modelled from the spec: the metrics owned by the grpc_prometheus
interceptor, a library outside the repository (a counter and a duration
histogram per method, spec §4.2 steps 4 and 5).  They live in the
interceptor's package, apart from the two unexported package-level variables
of `main.go`, which the interceptor cannot reach. -/
structure ServerMetrics where
  handled : CounterVec
  handlingSeconds : HistogramVec
deriving DecidableEq

/-- The metric state of the process: the two package-level vectors of
`main.go` and the interceptor's own metrics. -/
structure Registry where
  requestsProcessed : CounterVec
  requestDuration : HistogramVec
  grpc : ServerMetrics
deriving DecidableEq

/-- The registry of a freshly started process.  The interceptor's metric names
and thresholds are defined by its library, not by `main.go`, so its initial
metrics are a parameter. -/
def Registry.fresh (grpc : ServerMetrics) : Registry :=
  { requestsProcessed := GreeterServer.requestsProcessed
    requestDuration := GreeterServer.requestDuration
    grpc := grpc }

/-! ## The call handler -/

/-- Request message `pb.HelloRequest`. -/
structure HelloRequest where
  Name : String
deriving DecidableEq

/-- Reply message `pb.HelloReply`. -/
structure HelloReply where
  Message : String
deriving DecidableEq

/-- A Go `error` value that is not nil. -/
structure Failure where
  text : String
deriving DecidableEq

/-- The generated getter `(*HelloRequest).GetName`: the name of the request, or
the empty string for a nil request. -/
def GetName : Option HelloRequest → String
  | some r => r.Name
  | none => ""

/-- `time.Duration.Seconds`: a duration in nanoseconds as seconds. -/
def Seconds (d : Int) : ℚ := (d : ℚ) / 1000000000

/-- Lines 48-58: `SayHello`.  `start` is the clock reading of line 49 and
`stop` the one of line 53 (monotonic clock, nanoseconds).  The result is the
registry after the call, the reply and the error (`none` is nil). -/
def SayHello (reg : Registry) (start stop : Int) (req : Option HelloRequest) :
    Registry × Option HelloReply × Option Failure :=
  let reply : HelloReply := { Message := "Hello " ++ GetName req }
  let duration := Seconds (stop - start)
  let reg1 := { reg with requestsProcessed := reg.requestsProcessed.Inc "SayHello" }
  let reg2 := { reg1 with requestDuration := reg1.requestDuration.Observe "SayHello" duration }
  (reg2, some reply, none)

/-! ## The interceptor -/

/-- Modelled from the spec: the grpc_prometheus interceptor installed at lines
66-67, whose source is a library outside the repository (spec §4.2): record a
start timestamp, delegate to the handler, compute the elapsed seconds,
increment the interceptor's counter for the method, observe the elapsed time in
the interceptor's histogram for the method, return the handler's outcome
unchanged.  `start` and `stop` are the two clock readings. -/
def instrument {ρ : Type} (reg : Registry) (method : String) (start stop : Int)
    (handler : Registry → Registry × ρ) : Registry × ρ :=
  let (reg1, outcome) := handler reg
  let elapsed := Seconds (stop - start)
  let grpc1 : ServerMetrics :=
    { handled := reg1.grpc.handled.Inc method
      handlingSeconds := reg1.grpc.handlingSeconds.Observe method elapsed }
  ({ reg1 with grpc := grpc1 }, outcome)

/-- One remote call to SayHello as the server of `main` serves it: the request
and the four clock readings (interceptor start, handler start, handler stop,
interceptor stop). -/
structure Invocation where
  req : Option HelloRequest
  t0 : Int
  t1 : Int
  t2 : Int
  t3 : Int

/-- Lines 65-70: a call to SayHello passes through the unary interceptor, which
delegates to the registered handler. -/
def serveSayHello (reg : Registry) (c : Invocation) :
    Registry × Option HelloReply × Option Failure :=
  instrument reg "SayHello" c.t0 c.t3 (fun r => SayHello r c.t1 c.t2 c.req)

/-- Invocations executed one after another. -/
def serveAll (reg : Registry) (cs : List Invocation) : Registry :=
  cs.foldl (fun r c => (serveSayHello r c).1) reg

/-- Invocations of SayHello observed as (label, seconds) pairs, one per call:
the handler's own measurement of lines 49-53. -/
def handlerObservations (cs : List Invocation) : List (String × ℚ) :=
  cs.map (fun c => ("SayHello", Seconds (c.t2 - c.t1)))

/-- A sequence of `WithLabelValues(l).Observe(d)` calls on a histogram vector. -/
def observeAll (v : HistogramVec) (obs : List (String × ℚ)) : HistogramVec :=
  obs.foldl (fun w o => w.Observe o.1 o.2) v

/-- The observations of a sequence that carry the label `m`. -/
def observationsOf (m : String) (obs : List (String × ℚ)) : List ℚ :=
  (obs.filter (fun o => decide (o.1 = m))).map Prod.snd

/-- The histogram the spec describes for a list of observations: each bucket
holds the number of observations ≤ its threshold, the top bucket and the total
count hold the number of observations, the sum is their sum. -/
def cumulativeHistogram (bounds : List ℚ) (ds : List ℚ) : Histogram :=
  { buckets := bounds.map (fun t => ⟨some t, ds.countP (fun d => decide (d ≤ t))⟩)
      ++ [⟨none, ds.length⟩]
    sampleSum := ds.sum
    sampleCount := ds.length }

/-! ## Exposition -/

/-- One line of the text exposition. -/
inductive Line where
  | counter (name method : String) (value : Nat)
  | bucket (name method : String) (le : Option ℚ) (count : Nat)
  | sum (name method : String) (value : ℚ)
  | count (name method : String) (value : Nat)
deriving DecidableEq

/-- Modelled from the spec: the exposition of a counter vector by
`promhttp.Handler()` (library code outside the repository): one line per
counter value (spec §4.4). -/
def CounterVec.expose (v : CounterVec) : List Line :=
  v.children.map (fun c => Line.counter v.Name c.1 c.2)

/-- Modelled from the spec: the exposition of a histogram vector by
`promhttp.Handler()` (library code outside the repository): for each histogram
one line per bucket (cumulative count), plus total sum and total count lines
(spec §4.4). -/
def HistogramVec.expose (v : HistogramVec) : List Line :=
  v.children.flatMap (fun c =>
    c.2.buckets.map (fun b => Line.bucket v.Name c.1 b.upperBound b.cumulativeCount)
      ++ [Line.sum v.Name c.1 c.2.sampleSum, Line.count v.Name c.1 c.2.sampleCount])

/-- Modelled from the spec: the part of a scrape of `GET /metrics` (line 76,
`promhttp.Handler()`, library code outside the repository) that reports the
request counter and the request-duration histogram: a rendering of the current
values (spec §4.4). -/
def scrapeRequests (reg : Registry) : List Line :=
  reg.requestsProcessed.expose ++ reg.requestDuration.expose

/-- What happens to a running server: a remote call to SayHello, or a scrape. -/
inductive Event where
  | call (c : Invocation)
  | scrape

/-- Modelled from the spec: what serving a scrape (`promhttp.Handler()`,
library code outside the repository) does to the metrics of the registry: it
reads a snapshot and writes nothing (spec §4.3, `snapshot()`); no statement of
`main.go` runs on a scrape. -/
def scrapeEffect (reg : Registry) : Registry := reg

/-- The registry after one event. -/
def Event.apply (reg : Registry) : Event → Registry
  | Event.call c => (serveSayHello reg c).1
  | Event.scrape => scrapeEffect reg

/-- The registry after a sequence of events. -/
def run (reg : Registry) (evs : List Event) : Registry :=
  evs.foldl Event.apply reg

/-- An example start state of the interceptor's metrics: no child yet. -/
def exampleServerMetrics : ServerMetrics :=
  { handled := { Name := "grpc_server_handled_total", children := [] }
    handlingSeconds :=
      { Name := "grpc_server_handling_seconds"
        Buckets := [0.005, 0.01, 0.025, 0.05, 0.1, 0.25, 0.5, 1, 2.5, 5, 10]
        children := [] } }

/-- A handler of another method that fails and does not touch any metric. -/
def failingHandler (reg : Registry) : Registry × Option HelloReply × Option Failure :=
  (reg, none, some ⟨"unimplemented"⟩)

/-- The seconds observed by the handler for the calls among a list of events. -/
def eventObservations : List Event → List (String × ℚ)
  | [] => []
  | Event.call c :: rest => ("SayHello", Seconds (c.t2 - c.t1)) :: eventObservations rest
  | Event.scrape :: rest => eventObservations rest

/-! ## The supervisor: `main` and the metrics goroutine -/

/-- Where the main goroutine stands in `main` (lines 61-92). -/
inductive MainPc where
  | setup
  | spawned
  | listening
  | serving
  | failed
deriving DecidableEq

/-- Where the metrics goroutine of lines 74-82 stands. -/
inductive MetricsPc where
  | notStarted
  | starting
  | serving
  | failed
deriving DecidableEq

/-- What the operating system answers to the two binds. -/
structure Ports where
  rpcFree : Bool
  expositionFree : Bool
deriving DecidableEq

/-- The state of the process: both goroutines, whether `log.Fatalf` has ended
the process, and how many remote calls and scrapes have been served. -/
structure Supervisor where
  mainPc : MainPc
  metricsPc : MetricsPc
  exited : Bool
  served : Nat
  scraped : Nat
deriving DecidableEq

/-- The process at the start of `main`. -/
def Supervisor.start : Supervisor :=
  { mainPc := MainPc.setup, metricsPc := MetricsPc.notStarted, exited := false,
    served := 0, scraped := 0 }

/-- One step of one goroutine, or of the environment on a serving listener. -/
inductive Action where
  | spawn
  | listen
  | serve
  | rpc
  | rpcError
  | mainFatal
  | metricsListen
  | scrape
  | metricsError
  | metricsFatal
deriving DecidableEq

/-- The step function of the process; `none` when the action is not enabled.
Nothing runs once the process has exited.

* `spawn`: line 74, the `go` statement; the main goroutine goes on at once.
* `listen`: line 84, `net.Listen`; on failure the main goroutine is at line 86.
* `serve`: line 90, `s.Serve(lis)` starts accepting.
* `rpc`: the serving remote-procedure listener serves one call.
* `rpcError`: `s.Serve` returns an error; the main goroutine is at line 91.
* `mainFatal`: `log.Fatalf` of line 86 or 91.
* `metricsListen`: line 79, `http.ListenAndServe` binds; on failure it returns
  the error and the goroutine is at line 80.
* `scrape`: the serving exposition listener serves one scrape.
* `metricsError`: `http.ListenAndServe` returns an error while serving.
* `metricsFatal`: `log.Fatalf` of line 80. -/
def Supervisor.step (env : Ports) (s : Supervisor) (a : Action) : Option Supervisor :=
  if s.exited then none
  else
    match a with
    | Action.spawn =>
      if s.mainPc = MainPc.setup then
        some { s with mainPc := MainPc.spawned, metricsPc := MetricsPc.starting }
      else none
    | Action.listen =>
      if s.mainPc = MainPc.spawned then
        some { s with mainPc := if env.rpcFree then MainPc.listening else MainPc.failed }
      else none
    | Action.serve =>
      if s.mainPc = MainPc.listening then some { s with mainPc := MainPc.serving } else none
    | Action.rpc =>
      if s.mainPc = MainPc.serving then some { s with served := s.served + 1 } else none
    | Action.rpcError =>
      if s.mainPc = MainPc.serving then some { s with mainPc := MainPc.failed } else none
    | Action.mainFatal =>
      if s.mainPc = MainPc.failed then some { s with exited := true } else none
    | Action.metricsListen =>
      if s.metricsPc = MetricsPc.starting then
        some { s with
          metricsPc := if env.expositionFree then MetricsPc.serving else MetricsPc.failed }
      else none
    | Action.scrape =>
      if s.metricsPc = MetricsPc.serving then some { s with scraped := s.scraped + 1 } else none
    | Action.metricsError =>
      if s.metricsPc = MetricsPc.serving then some { s with metricsPc := MetricsPc.failed }
      else none
    | Action.metricsFatal =>
      if s.metricsPc = MetricsPc.failed then some { s with exited := true } else none

/-- A sequence of steps, in the order the scheduler and the environment take
them; `none` when one of them is not enabled. -/
def Supervisor.steps (env : Ports) (s : Supervisor) : List Action → Option Supervisor
  | [] => some s
  | a :: rest => (Supervisor.step env s a).bind (fun s1 => Supervisor.steps env s1 rest)

/-- Whether an action is a step of the metrics goroutine (lines 75-81): its
bind, a scrape served by its listener, an error of its listener, its fatal
exit. -/
def Action.ofMetricsGoroutine : Action → Bool
  | Action.metricsListen => true
  | Action.scrape => true
  | Action.metricsError => true
  | Action.metricsFatal => true
  | _ => false

/-- The number of steps of the metrics goroutine in a run. -/
def metricsSteps (acts : List Action) : Nat :=
  acts.countP Action.ofMetricsGoroutine

/-- Where the metrics goroutine stands after `k` of its own steps when the
exposition port is occupied: before its bind after none, at line 80 with the
bind failed after one, and the process has exited after two; it never takes a
third.  Once it is spawned the main goroutine is past the `go` statement. -/
def Supervisor.metricsProgress (s : Supervisor) (k : Nat) : Prop :=
  (k = 0 ∧ (s.metricsPc = MetricsPc.notStarted
      ∨ (s.metricsPc = MetricsPc.starting ∧ s.mainPc ≠ MainPc.setup)))
  ∨ (k = 1 ∧ s.metricsPc = MetricsPc.failed ∧ s.mainPc ≠ MainPc.setup)
  ∨ (k = 2 ∧ s.metricsPc = MetricsPc.failed ∧ s.exited = true)

/-! ## Concurrent invocations of the handler -/

/-- One in-flight invocation of `SayHello`: its request, the two clock readings
it will get, the statement it stands at and its local variables.  `pc` counts
the statements of lines 49, 51, 53, 54, 55, 57 already executed; 6 means the
call has returned. -/
structure Thread where
  req : Option HelloRequest
  now1 : Int
  now2 : Int
  pc : Nat
  start : Int
  reply : Option HelloReply
  duration : ℚ
  result : Option (Option HelloReply × Option Failure)

/-- An invocation that has not executed any statement yet. -/
def Thread.spawn (a : Option HelloRequest × Int × Int) : Thread :=
  { req := a.1, now1 := a.2.1, now2 := a.2.2, pc := 0, start := 0, reply := none,
    duration := 0, result := none }

/-- One statement of `SayHello` (lines 49, 51, 53, 54, 55, 57) executed by one
invocation on the shared registry.  Each of the two registry operations is a
single step: the spec (§4.3) states that the library's increment and observe
are atomic. -/
def Thread.step (t : Thread) (reg : Registry) : Thread × Registry :=
  match t.pc with
  | 0 => ({ t with pc := 1, start := t.now1 }, reg)
  | 1 => ({ t with pc := 2, reply := some { Message := "Hello " ++ GetName t.req } }, reg)
  | 2 => ({ t with pc := 3, duration := Seconds (t.now2 - t.start) }, reg)
  | 3 => ({ t with pc := 4 },
          { reg with requestsProcessed := reg.requestsProcessed.Inc "SayHello" })
  | 4 => ({ t with pc := 5 },
          { reg with requestDuration := reg.requestDuration.Observe "SayHello" t.duration })
  | 5 => ({ t with pc := 6, result := some (t.reply, none) }, reg)
  | _ => (t, reg)

/-- The invocations in flight and the registry they share. -/
structure Conf where
  threads : List Thread
  reg : Registry

/-- The scheduler lets invocation number `i` execute its next statement. -/
def Conf.step (c : Conf) (i : Nat) : Conf :=
  match c.threads[i]? with
  | none => c
  | some t => { threads := c.threads.set i (t.step c.reg).1, reg := (t.step c.reg).2 }

/-- An interleaving: the invocation numbers in the order they are scheduled. -/
def Conf.run (c : Conf) (schedule : List Nat) : Conf :=
  schedule.foldl Conf.step c

/-- The invocations of the given requests, all about to start, on a registry. -/
def Conf.spawn (reg : Registry) (calls : List (Option HelloRequest × Int × Int)) : Conf :=
  { threads := calls.map Thread.spawn, reg := reg }

/-- Whether an invocation has executed the increment of line 54: 1 or 0. -/
def Thread.incremented (t : Thread) : Nat := if 4 ≤ t.pc then 1 else 0

/-- The statement an invocation stands at after its next step. -/
def nextPc (p : Nat) : Nat := if p < 6 then p + 1 else p

/-- The schedule that runs invocations `k`, `k + 1`, ..., `k + j - 1` one after
the other, each for its six statements. -/
def sequentialSchedule (k : Nat) : Nat → List Nat
  | 0 => []
  | j + 1 => List.replicate 6 k ++ sequentialSchedule (k + 1) j

/-! ## Lemmas on children -/

theorem Children.find_update_same {α : Type} (fresh : α) (f : α → α) (c : Children α)
    (l : String) :
    Children.find (Children.update fresh f c l) l = some (f ((Children.find c l).getD fresh)) := by
  induction c with
  | nil => simp [Children.update, Children.find]
  | cons p rest ih =>
    obtain ⟨k, a⟩ := p
    by_cases h : k = l
    · simp [Children.update, Children.find, h]
    · simp [Children.update, Children.find, h, ih]

theorem Children.find_update_other {α : Type} (fresh : α) (f : α → α) (c : Children α)
    (l m : String) (hne : m ≠ l) :
    Children.find (Children.update fresh f c l) m = Children.find c m := by
  induction c with
  | nil =>
    have : ¬ l = m := fun e => hne e.symm
    simp [Children.update, Children.find, this]
  | cons p rest ih =>
    obtain ⟨k, a⟩ := p
    by_cases h : k = l
    · subst h
      have : ¬ k = m := fun e => hne e.symm
      simp [Children.update, Children.find, this]
    · by_cases h2 : k = m
      · subst h2
        simp [Children.update, Children.find, h]
      · simp [Children.update, Children.find, h, h2, ih]

theorem CounterVec.value_Inc_same (v : CounterVec) (l : String) :
    (v.Inc l).value l = v.value l + 1 := by
  simp [CounterVec.Inc, CounterVec.value, Children.find_update_same]

theorem CounterVec.value_Inc_other (v : CounterVec) (l m : String) (hne : m ≠ l) :
    (v.Inc l).value m = v.value m := by
  simp [CounterVec.Inc, CounterVec.value, Children.find_update_other _ _ _ _ _ hne]

theorem HistogramVec.child_Observe_same (v : HistogramVec) (l : String) (d : ℚ) :
    (v.Observe l d).child l = some (((v.child l).getD (newHistogram v.Buckets)).Observe d) := by
  simp [HistogramVec.Observe, HistogramVec.child, Children.find_update_same]

theorem HistogramVec.child_Observe_other (v : HistogramVec) (l m : String) (d : ℚ)
    (hne : m ≠ l) : (v.Observe l d).child m = v.child m := by
  simp [HistogramVec.Observe, HistogramVec.child, Children.find_update_other _ _ _ _ _ hne]

theorem HistogramVec.Buckets_Observe (v : HistogramVec) (l : String) (d : ℚ) :
    (v.Observe l d).Buckets = v.Buckets := rfl

/-! ## Lemmas on the handler and the interceptor -/

theorem SayHello_requestsProcessed (reg : Registry) (start stop : Int)
    (req : Option HelloRequest) :
    (SayHello reg start stop req).1.requestsProcessed = reg.requestsProcessed.Inc "SayHello" := rfl

theorem SayHello_requestDuration (reg : Registry) (start stop : Int)
    (req : Option HelloRequest) :
    (SayHello reg start stop req).1.requestDuration
      = reg.requestDuration.Observe "SayHello" (Seconds (stop - start)) := rfl

theorem instrument_requestsProcessed {ρ : Type} (reg : Registry) (m : String)
    (start stop : Int) (handler : Registry → Registry × ρ) :
    (instrument reg m start stop handler).1.requestsProcessed
      = (handler reg).1.requestsProcessed := rfl

theorem instrument_requestDuration {ρ : Type} (reg : Registry) (m : String)
    (start stop : Int) (handler : Registry → Registry × ρ) :
    (instrument reg m start stop handler).1.requestDuration
      = (handler reg).1.requestDuration := rfl

theorem instrument_outcome {ρ : Type} (reg : Registry) (m : String)
    (start stop : Int) (handler : Registry → Registry × ρ) :
    (instrument reg m start stop handler).2 = (handler reg).2 := rfl

theorem serveSayHello_requestsProcessed (reg : Registry) (c : Invocation) :
    (serveSayHello reg c).1.requestsProcessed = reg.requestsProcessed.Inc "SayHello" := rfl

theorem serveSayHello_requestDuration (reg : Registry) (c : Invocation) :
    (serveSayHello reg c).1.requestDuration
      = reg.requestDuration.Observe "SayHello" (Seconds (c.t2 - c.t1)) := rfl

theorem serveAll_value (cs : List Invocation) (reg : Registry) :
    (serveAll reg cs).requestsProcessed.value "SayHello"
      = reg.requestsProcessed.value "SayHello" + cs.length := by
  induction cs generalizing reg with
  | nil => simp [serveAll]
  | cons c rest ih =>
    have h := ih (serveSayHello reg c).1
    simp only [serveAll, List.foldl_cons] at h ⊢
    rw [h, serveSayHello_requestsProcessed, CounterVec.value_Inc_same]
    simp only [List.length_cons]
    omega

theorem serveAll_requestDuration (cs : List Invocation) (reg : Registry) :
    (serveAll reg cs).requestDuration
      = observeAll reg.requestDuration (handlerObservations cs) := by
  induction cs generalizing reg with
  | nil => rfl
  | cons c rest ih =>
    have h := ih (serveSayHello reg c).1
    simp only [serveAll, List.foldl_cons] at h ⊢
    rw [h, serveSayHello_requestDuration]
    rfl

/-! ## Lemmas on histograms -/

theorem newHistogram_eq_cumulative (bounds : List ℚ) :
    newHistogram bounds = cumulativeHistogram bounds [] := by
  simp [newHistogram, cumulativeHistogram]

theorem cumulativeHistogram_Observe (bounds : List ℚ) (ds : List ℚ) (d : ℚ) :
    (cumulativeHistogram bounds ds).Observe d = cumulativeHistogram bounds (ds ++ [d]) := by
  simp only [cumulativeHistogram, Histogram.Observe, List.map_append, List.map_map,
    List.map_cons, List.map_nil, List.sum_append, List.sum_cons, List.sum_nil, add_zero,
    List.length_append, List.length_cons, List.length_nil, covers, if_true]
  congr 1
  congr 1
  apply List.map_congr_left
  intro t _
  by_cases h : d ≤ t
  · simp [Function.comp, covers, h, List.countP_append]
  · simp [Function.comp, covers, h, List.countP_append]

theorem observeAll_append (v : HistogramVec) (obs : List (String × ℚ)) (o : String × ℚ) :
    observeAll v (obs ++ [o]) = (observeAll v obs).Observe o.1 o.2 := by
  simp [observeAll, List.foldl_append]

theorem observeAll_Buckets (v : HistogramVec) (obs : List (String × ℚ)) :
    (observeAll v obs).Buckets = v.Buckets := by
  induction obs using List.reverseRecOn with
  | nil => rfl
  | append_singleton obs o ih => rw [observeAll_append, HistogramVec.Buckets_Observe, ih]

theorem observationsOf_append_same (m : String) (obs : List (String × ℚ)) (d : ℚ) :
    observationsOf m (obs ++ [(m, d)]) = observationsOf m obs ++ [d] := by
  simp [observationsOf, List.filter_append]

theorem observationsOf_append_other (m l : String) (obs : List (String × ℚ)) (d : ℚ)
    (hne : m ≠ l) : observationsOf m (obs ++ [(l, d)]) = observationsOf m obs := by
  have : ¬ l = m := fun e => hne e.symm
  simp [observationsOf, List.filter_append, this]

/-- The child of a label after a sequence of observations into a vector that
had no child for that label: absent when the label was never observed, else the
cumulative histogram of the label's observations. -/
theorem child_observeAll (v : HistogramVec) (m : String) (hv : v.child m = none)
    (obs : List (String × ℚ)) :
    (observeAll v obs).child m
      = if observationsOf m obs = [] then none
        else some (cumulativeHistogram v.Buckets (observationsOf m obs)) := by
  induction obs using List.reverseRecOn with
  | nil => simpa [observeAll, observationsOf] using hv
  | append_singleton obs o ih =>
    obtain ⟨l, d⟩ := o
    rw [observeAll_append]
    by_cases hl : m = l
    · subst hl
      rw [HistogramVec.child_Observe_same, ih, observationsOf_append_same, observeAll_Buckets]
      by_cases he : observationsOf m obs = []
      · simp [he, newHistogram_eq_cumulative, cumulativeHistogram_Observe]
      · simp [he, cumulativeHistogram_Observe]
    · rw [HistogramVec.child_Observe_other _ _ _ _ hl, ih, observationsOf_append_other _ _ _ _ hl]

theorem run_requestDuration_Buckets (evs : List Event) (reg : Registry) :
    (run reg evs).requestDuration.Buckets = reg.requestDuration.Buckets := by
  induction evs generalizing reg with
  | nil => rfl
  | cons e rest ih =>
    have h := ih (Event.apply reg e)
    simp only [run, List.foldl_cons] at h ⊢
    rw [h]
    cases e with
    | call c => rfl
    | scrape => rfl

theorem run_requestDuration (evs : List Event) (reg : Registry) :
    (run reg evs).requestDuration = observeAll reg.requestDuration (eventObservations evs) := by
  induction evs generalizing reg with
  | nil => rfl
  | cons e rest ih =>
    have h := ih (Event.apply reg e)
    simp only [run, List.foldl_cons] at h ⊢
    rw [h]
    cases e with
    | call c => rfl
    | scrape => rfl

theorem cumulativeHistogram_upperBounds (bounds ds : List ℚ) :
    (cumulativeHistogram bounds ds).upperBounds = bounds.map some ++ [none] := by
  simp [cumulativeHistogram, Histogram.upperBounds, Function.comp]

theorem cumulativeHistogram_bucket (bounds ds : List ℚ) (b : Bucket)
    (hb : b ∈ (cumulativeHistogram bounds ds).buckets) :
    (∀ t, b.upperBound = some t → b.cumulativeCount = ds.countP (fun d => decide (d ≤ t)))
      ∧ (b.upperBound = none → b.cumulativeCount = ds.length) := by
  simp only [cumulativeHistogram, List.mem_append, List.mem_map, List.mem_singleton] at hb
  rcases hb with ⟨t0, _, rfl⟩ | rfl
  · constructor
    · intro t ht
      simp only [Option.some.injEq] at ht
      subst ht
      rfl
    · intro hn
      simp at hn
  · constructor
    · intro t ht
      simp at ht
    · intro _
      rfl

theorem observationsOf_handlerObservations (cs : List Invocation) :
    observationsOf "SayHello" (handlerObservations cs)
      = cs.map (fun c => Seconds (c.t2 - c.t1)) := by
  induction cs with
  | nil => rfl
  | cons c rest ih =>
    simp only [observationsOf, handlerObservations, List.map_cons] at ih ⊢
    rw [List.filter_cons_of_pos (by simp), List.map_cons, ih]

/-! ## The claims on the handler and the metrics -/

/-- C1: for every request name `s`, the empty string and a request without a
name included, SayHello returns the reply "Hello " followed by `s` and no
error; the reply is the same when the call passes through the interceptor. -/
theorem SayHello_returns_greeting (reg : Registry) (start stop : Int) :
    (∀ s : String, (SayHello reg start stop (some ⟨s⟩)).2 = (some ⟨"Hello " ++ s⟩, none))
    ∧ (SayHello reg start stop none).2 = (some ⟨"Hello "⟩, none)
    ∧ (SayHello reg start stop (some ⟨""⟩)).2 = (some ⟨"Hello "⟩, none)
    ∧ (SayHello reg start stop (some ⟨"World"⟩)).2 = (some ⟨"Hello World"⟩, none)
    ∧ (∀ c : Invocation, (serveSayHello reg c).2 = (some ⟨"Hello " ++ GetName c.req⟩, none)) := by
  refine ⟨fun s => rfl, ?_, ?_, ?_, fun c => rfl⟩
  · simp [SayHello, GetName]
  · simp [SayHello, GetName]
  · simp [SayHello, GetName]

/-- C2: from the registry of a fresh process, after N invocations of SayHello
executed one after another the counter grpc_server_requests_processed_total
labelled method = "SayHello" equals N, and each invocation (through the
interceptor or of the handler alone) increases it by exactly 1. -/
theorem requestsProcessed_counts_invocations (grpc : ServerMetrics) (cs : List Invocation) :
    requestsProcessed.Name = "grpc_server_requests_processed_total"
    ∧ (serveAll (Registry.fresh grpc) cs).requestsProcessed.value "SayHello" = cs.length
    ∧ (∀ (reg : Registry) (c : Invocation),
        (serveSayHello reg c).1.requestsProcessed.value "SayHello"
          = reg.requestsProcessed.value "SayHello" + 1)
    ∧ (∀ (reg : Registry) (start stop : Int) (req : Option HelloRequest),
        (SayHello reg start stop req).1.requestsProcessed.value "SayHello"
          = reg.requestsProcessed.value "SayHello" + 1) := by
  refine ⟨rfl, ?_, ?_, ?_⟩
  · rw [serveAll_value]
    simp [Registry.fresh, requestsProcessed, CounterVec.value, Children.find]
  · intro reg c
    rw [serveSayHello_requestsProcessed, CounterVec.value_Inc_same]
  · intro reg start stop req
    rw [SayHello_requestsProcessed, CounterVec.value_Inc_same]

/-- C3: for any sequence of observations into the request-duration histogram
vector and any method label m, with ds the observations labelled m: the
histogram of m exists exactly when ds is not empty; its thresholds are the
twelve of the source followed by the infinite one; every bucket with threshold
t counts the observations d ≤ t; the infinite bucket counts as much as the
total count; the total count is the number of observations.  In the server the
observations are one per call to SayHello, so the total count is the number of
calls. -/
theorem requestDuration_buckets_cumulative (obs : List (String × ℚ)) (m : String) :
    (observationsOf m obs = [] → (observeAll requestDuration obs).child m = none)
    ∧ (observationsOf m obs ≠ [] → ∃ h, (observeAll requestDuration obs).child m = some h)
    ∧ (∀ h, (observeAll requestDuration obs).child m = some h →
        h.upperBounds = Buckets.map some ++ [none]
        ∧ (∀ b ∈ h.buckets, ∀ t, b.upperBound = some t →
            b.cumulativeCount = (observationsOf m obs).countP (fun d => decide (d ≤ t)))
        ∧ (∀ b ∈ h.buckets, b.upperBound = none → b.cumulativeCount = h.sampleCount)
        ∧ h.sampleCount = (observationsOf m obs).length)
    ∧ (∀ (grpc : ServerMetrics) (cs : List Invocation),
        (serveAll (Registry.fresh grpc) cs).requestDuration
            = observeAll requestDuration (handlerObservations cs)
        ∧ (observationsOf "SayHello" (handlerObservations cs)).length = cs.length) := by
  have hc := child_observeAll requestDuration m rfl obs
  have hB : requestDuration.Buckets = Buckets := rfl
  rw [hB] at hc
  refine ⟨?_, ?_, ?_, ?_⟩
  · intro he
    rw [hc, if_pos he]
  · intro hne
    rw [hc, if_neg hne]
    exact ⟨_, rfl⟩
  · intro h hh
    rw [hc] at hh
    by_cases he : observationsOf m obs = []
    · rw [if_pos he] at hh
      cases hh
    · rw [if_neg he] at hh
      cases hh
      refine ⟨cumulativeHistogram_upperBounds _ _, ?_, ?_, rfl⟩
      · intro b hb t ht
        exact (cumulativeHistogram_bucket _ _ b hb).1 t ht
      · intro b hb hn
        exact (cumulativeHistogram_bucket _ _ b hb).2 hn
  · intro grpc cs
    refine ⟨serveAll_requestDuration cs _, ?_⟩
    rw [observationsOf_handlerObservations, List.length_map]

/-- C3, at a concrete input: two observations of SayHello (3 ms and 300 ms)
and one of another label. -/
theorem requestDuration_buckets_cumulative_witness :
    ∃ h, (observeAll requestDuration
            [("SayHello", 0.003), ("Other", 7), ("SayHello", 0.3)]).child "SayHello" = some h
      ∧ h.sampleCount = 2 := by
  have hne : observationsOf "SayHello" [("SayHello", 0.003), ("Other", 7), ("SayHello", 0.3)] ≠ [] := by
    simp [observationsOf]
  obtain ⟨_, hex, hall, _⟩ :=
    requestDuration_buckets_cumulative [("SayHello", 0.003), ("Other", 7), ("SayHello", 0.3)] "SayHello"
  obtain ⟨h, hh⟩ := hex hne
  refine ⟨h, hh, ?_⟩
  rw [(hall h hh).2.2.2]
  simp [observationsOf]

/-- C4, as stated, fails: on the registry of a fresh process the handler
alone, called with the name "World", takes the counter labelled "SayHello" from
0 to 1 and creates the histogram labelled "SayHello" with one observation, so
the registry does not stay unchanged. -/
theorem SayHello_changes_registry :
    (Registry.fresh exampleServerMetrics).requestsProcessed.value "SayHello" = 0
    ∧ (SayHello (Registry.fresh exampleServerMetrics) 0 0 (some ⟨"World"⟩)).1.requestsProcessed.value
        "SayHello" = 1
    ∧ (Registry.fresh exampleServerMetrics).requestDuration.child "SayHello" = none
    ∧ ((SayHello (Registry.fresh exampleServerMetrics) 0 0 (some ⟨"World"⟩)).1.requestDuration.child
        "SayHello").map Histogram.sampleCount = some 1
    ∧ (SayHello (Registry.fresh exampleServerMetrics) 0 0 (some ⟨"World"⟩)).1
        ≠ Registry.fresh exampleServerMetrics := by
  refine ⟨by decide, by decide, rfl, ?_, ?_⟩
  · rw [SayHello_requestDuration, HistogramVec.child_Observe_same]
    rfl
  · intro h
    have h2 := congrArg (fun r => r.requestsProcessed.value "SayHello") h
    revert h2
    decide

/-- C4, amended: for every request, registry and pair of clock readings, the
handler alone increases the request counter labelled "SayHello" by exactly 1,
observes the elapsed seconds once in the request-duration histogram labelled
"SayHello" (creating it when absent), leaves the counter and histogram of every
other method label and the interceptor's metrics unchanged, and returns the
greeting with no error. -/
theorem SayHello_records_own_metrics (reg : Registry) (start stop : Int)
    (req : Option HelloRequest) :
    (SayHello reg start stop req).1.requestsProcessed.value "SayHello"
        = reg.requestsProcessed.value "SayHello" + 1
    ∧ (SayHello reg start stop req).1.requestDuration.child "SayHello"
        = some (((reg.requestDuration.child "SayHello").getD
            (newHistogram reg.requestDuration.Buckets)).Observe (Seconds (stop - start)))
    ∧ (∀ h d, (Histogram.Observe h d).sampleCount = h.sampleCount + 1)
    ∧ (∀ m, m ≠ "SayHello" →
        (SayHello reg start stop req).1.requestsProcessed.value m = reg.requestsProcessed.value m
        ∧ (SayHello reg start stop req).1.requestDuration.child m = reg.requestDuration.child m)
    ∧ (SayHello reg start stop req).1.grpc = reg.grpc
    ∧ (SayHello reg start stop req).2 = (some ⟨"Hello " ++ GetName req⟩, none) := by
  refine ⟨?_, ?_, fun _ _ => rfl, ?_, rfl, rfl⟩
  · rw [SayHello_requestsProcessed, CounterVec.value_Inc_same]
  · rw [SayHello_requestDuration, HistogramVec.child_Observe_same]
  · intro m hm
    rw [SayHello_requestsProcessed, SayHello_requestDuration,
      CounterVec.value_Inc_other _ _ _ hm, HistogramVec.child_Observe_other _ _ _ _ hm]
    exact ⟨rfl, rfl⟩

/-- C4 amended, at a concrete input: a call on a fresh registry leaves the
label "Other" without counter value and without histogram. -/
theorem SayHello_records_own_metrics_witness :
    "Other" ≠ "SayHello"
    ∧ (SayHello (Registry.fresh exampleServerMetrics) 0 7 none).1.requestsProcessed.value "Other"
        = (Registry.fresh exampleServerMetrics).requestsProcessed.value "Other"
    ∧ (SayHello (Registry.fresh exampleServerMetrics) 0 7 none).1.requestDuration.child "Other"
        = (Registry.fresh exampleServerMetrics).requestDuration.child "Other" :=
  ⟨by decide,
    (SayHello_records_own_metrics (Registry.fresh exampleServerMetrics) 0 7 none).2.2.2.1
      "Other" (by decide)⟩

/-- C5, as stated, fails: a call to the method "ServerReflectionInfo" whose
handler fails passes through the interceptor and leaves the request counter
labelled with that method at 0 and the request-duration histogram labelled with
that method absent; only the interceptor's own counter moves. -/
theorem interceptor_skips_request_metrics :
    (Registry.fresh exampleServerMetrics).requestsProcessed.value "ServerReflectionInfo" = 0
    ∧ (instrument (Registry.fresh exampleServerMetrics) "ServerReflectionInfo" 0 1000
        failingHandler).1.requestsProcessed.value "ServerReflectionInfo" = 0
    ∧ (instrument (Registry.fresh exampleServerMetrics) "ServerReflectionInfo" 0 1000
        failingHandler).1.requestDuration.child "ServerReflectionInfo" = none
    ∧ (instrument (Registry.fresh exampleServerMetrics) "ServerReflectionInfo" 0 1000
        failingHandler).1.grpc.handled.value "ServerReflectionInfo" = 1
    ∧ (instrument (Registry.fresh exampleServerMetrics) "ServerReflectionInfo" 0 1000
        failingHandler).2 = (none, some ⟨"unimplemented"⟩) := by
  refine ⟨by decide, by decide, rfl, by decide, rfl⟩

/-- C5, amended: a call to SayHello that passes through the interceptor
increases the request counter labelled "SayHello" by exactly 1 and observes the
handler's elapsed seconds once in the request-duration histogram labelled
"SayHello", both by the handler's own code, and returns the handler's outcome;
the interceptor itself writes neither family, so a call to any method whose
handler does not write them leaves the request counter and the request-duration
histogram unchanged and returns the handler's reply or failure unchanged.  What
the interceptor records for every call, whatever the method and the outcome,
is one increment of its own counter and one observation in its own histogram
for that method. -/
theorem interceptor_chain_request_metrics (reg : Registry) :
    (∀ c : Invocation,
        (serveSayHello reg c).1.requestsProcessed.value "SayHello"
            = reg.requestsProcessed.value "SayHello" + 1
        ∧ (serveSayHello reg c).1.requestDuration.child "SayHello"
            = some (((reg.requestDuration.child "SayHello").getD
                (newHistogram reg.requestDuration.Buckets)).Observe (Seconds (c.t2 - c.t1)))
        ∧ (serveSayHello reg c).2 = (SayHello reg c.t1 c.t2 c.req).2)
    ∧ (∀ (m : String) (start stop : Int)
        (handler : Registry → Registry × Option HelloReply × Option Failure),
        (handler reg).1.requestsProcessed = reg.requestsProcessed →
        (handler reg).1.requestDuration = reg.requestDuration →
        (instrument reg m start stop handler).1.requestsProcessed = reg.requestsProcessed
        ∧ (instrument reg m start stop handler).1.requestDuration = reg.requestDuration
        ∧ (instrument reg m start stop handler).2 = (handler reg).2)
    ∧ (∀ (m : String) (start stop : Int)
        (handler : Registry → Registry × Option HelloReply × Option Failure),
        (instrument reg m start stop handler).1.grpc.handled.value m
            = (handler reg).1.grpc.handled.value m + 1
        ∧ (instrument reg m start stop handler).1.grpc.handlingSeconds.child m
            = some ((((handler reg).1.grpc.handlingSeconds.child m).getD
                (newHistogram (handler reg).1.grpc.handlingSeconds.Buckets)).Observe
                  (Seconds (stop - start)))) := by
  refine ⟨?_, ?_, ?_⟩
  · intro c
    refine ⟨?_, ?_, rfl⟩
    · rw [serveSayHello_requestsProcessed, CounterVec.value_Inc_same]
    · rw [serveSayHello_requestDuration, HistogramVec.child_Observe_same]
  · intro m start stop handler h1 h2
    rw [instrument_requestsProcessed, instrument_requestDuration]
    exact ⟨h1, h2, rfl⟩
  · intro m start stop handler
    exact ⟨CounterVec.value_Inc_same _ m, HistogramVec.child_Observe_same _ m _⟩

/-- C5 amended, at a concrete input: the failing handler of another method on a
fresh registry. -/
theorem interceptor_chain_request_metrics_witness :
    (instrument (Registry.fresh exampleServerMetrics) "ServerReflectionInfo" 0 1000
        failingHandler).1.requestsProcessed = (Registry.fresh exampleServerMetrics).requestsProcessed
    ∧ (instrument (Registry.fresh exampleServerMetrics) "ServerReflectionInfo" 0 1000
        failingHandler).1.requestDuration = (Registry.fresh exampleServerMetrics).requestDuration
    ∧ (instrument (Registry.fresh exampleServerMetrics) "ServerReflectionInfo" 0 1000
        failingHandler).2 = (failingHandler (Registry.fresh exampleServerMetrics)).2 :=
  (interceptor_chain_request_metrics (Registry.fresh exampleServerMetrics)).2.1
    "ServerReflectionInfo" 0 1000 failingHandler rfl rfl

theorem run_scrapes (n : Nat) (reg : Registry) :
    run reg (List.replicate n Event.scrape) = reg := by
  induction n with
  | zero => rfl
  | succ k ih =>
    simp only [run, List.replicate_succ, List.foldl_cons, Event.apply] at ih ⊢
    exact ih

/-- C7: on a freshly started process, before any call, the scrape of the
request counter and of the request-duration histogram has no line at all, also
after any number of earlier scrapes: no method label has a counter value other
than 0 or a histogram. -/
theorem fresh_scrape_has_no_series (grpc : ServerMetrics) :
    scrapeRequests (Registry.fresh grpc) = []
    ∧ (∀ n, scrapeRequests (run (Registry.fresh grpc) (List.replicate n Event.scrape)) = [])
    ∧ (∀ m, (Registry.fresh grpc).requestsProcessed.value m = 0
        ∧ Children.find (Registry.fresh grpc).requestsProcessed.children m = none
        ∧ (Registry.fresh grpc).requestDuration.child m = none) :=
  ⟨rfl, fun n => by rw [run_scrapes]; rfl, fun _ => ⟨rfl, rfl, rfl⟩⟩

/-- C10: the thresholds of the request-duration histogram are the twelve values
0.001, 0.005, 0.01, 0.025, 0.05, 0.1, 0.25, 0.5, 1, 2.5, 5, 10, strictly
ascending, and after any sequence of calls and scrapes the vector still has
these thresholds and every histogram in it has them, followed by the infinite
bucket. -/
theorem Buckets_fixed :
    Buckets = [1 / 1000, 5 / 1000, 1 / 100, 25 / 1000, 5 / 100, 1 / 10, 25 / 100, 5 / 10,
      1, 25 / 10, 5, 10]
    ∧ Buckets.length = 12
    ∧ List.Pairwise (fun a b => a < b) Buckets
    ∧ (∀ (grpc : ServerMetrics) (evs : List Event),
        (run (Registry.fresh grpc) evs).requestDuration.Buckets = Buckets
        ∧ (∀ m h, (run (Registry.fresh grpc) evs).requestDuration.child m = some h →
            h.upperBounds = Buckets.map some ++ [none])) := by
  refine ⟨?_, rfl, ?_, ?_⟩
  · simp only [Buckets]
    norm_num
  · simp only [Buckets, List.pairwise_cons, List.mem_cons, List.mem_singleton,
      forall_eq_or_imp, forall_eq, List.Pairwise.nil, List.not_mem_nil]
    norm_num
  · intro grpc evs
    refine ⟨run_requestDuration_Buckets evs _, ?_⟩
    intro m h hh
    have hfresh : (Registry.fresh grpc).requestDuration.child m = none := rfl
    rw [run_requestDuration, child_observeAll _ m hfresh] at hh
    by_cases he : observationsOf m (eventObservations evs) = []
    · rw [if_pos he] at hh
      cases hh
    · rw [if_neg he] at hh
      cases hh
      exact cumulativeHistogram_upperBounds _ _

/-- C10, at a concrete input: after one call and one scrape the histogram of
SayHello has the twelve thresholds and the infinite bucket. -/
theorem Buckets_fixed_witness :
    ∃ h, (run (Registry.fresh exampleServerMetrics)
            [Event.call ⟨none, 0, 1, 2, 3⟩, Event.scrape]).requestDuration.child "SayHello" = some h
      ∧ h.upperBounds = Buckets.map some ++ [none] := by
  have hh : (run (Registry.fresh exampleServerMetrics)
      [Event.call ⟨none, 0, 1, 2, 3⟩, Event.scrape]).requestDuration.child "SayHello"
      = some ((newHistogram Buckets).Observe (Seconds (2 - 1))) := rfl
  exact ⟨_, hh, (Buckets_fixed.2.2.2 exampleServerMetrics
    [Event.call ⟨none, 0, 1, 2, 3⟩, Event.scrape]).2 "SayHello" _ hh⟩

/-! ## The supervisor -/

theorem Supervisor.step_exited (env : Ports) (s : Supervisor) (a : Action)
    (h : s.exited = true) : Supervisor.step env s a = none := by
  simp [Supervisor.step, h]

/-- While the exposition port is occupied, a step keeps the exposition listener
from serving and the number of scrapes at 0. -/
theorem Supervisor.step_never_scrapes (env : Ports) (hocc : env.expositionFree = false)
    (s s1 : Supervisor) (a : Action) (hstep : Supervisor.step env s a = some s1)
    (hinv : s.metricsPc ≠ MetricsPc.serving ∧ s.scraped = 0) :
    s1.metricsPc ≠ MetricsPc.serving ∧ s1.scraped = 0 := by
  obtain ⟨h1, h2⟩ := hinv
  unfold Supervisor.step at hstep
  split at hstep
  · cases hstep
  · cases a <;> simp only at hstep <;> (try split at hstep) <;> cases hstep <;>
      simp_all

theorem Supervisor.steps_never_scrapes (env : Ports) (hocc : env.expositionFree = false)
    (acts : List Action) (s s1 : Supervisor) (hsteps : Supervisor.steps env s acts = some s1)
    (hinv : s.metricsPc ≠ MetricsPc.serving ∧ s.scraped = 0) :
    s1.metricsPc ≠ MetricsPc.serving ∧ s1.scraped = 0 := by
  induction acts generalizing s with
  | nil =>
    simp only [Supervisor.steps, Option.some.injEq] at hsteps
    subst hsteps
    exact hinv
  | cons a rest ih =>
    simp only [Supervisor.steps] at hsteps
    cases hstep : Supervisor.step env s a with
    | none => simp [hstep] at hsteps
    | some s2 =>
      simp only [hstep, Option.some_bind] at hsteps
      exact ih s2 hsteps (Supervisor.step_never_scrapes env hocc s s2 a hstep hinv)

/-- C8, as stated, fails: with the exposition port occupied, the main goroutine
can bind, serve and answer one remote call before the metrics goroutine tries
its bind; the state after the failed bind has the remote-procedure listener
serving, and the process then exits having served one remote call. -/
theorem rpc_served_before_exposition_bind_fails :
    Supervisor.steps ⟨true, false⟩ Supervisor.start
        [Action.spawn, Action.listen, Action.serve, Action.rpc, Action.metricsListen]
      = some ⟨MainPc.serving, MetricsPc.failed, false, 1, 0⟩
    ∧ Supervisor.steps ⟨true, false⟩ Supervisor.start
        [Action.spawn, Action.listen, Action.serve, Action.rpc, Action.metricsListen,
          Action.metricsFatal]
      = some ⟨MainPc.serving, MetricsPc.failed, true, 1, 0⟩ := by
  decide

/-- After a failed bind the metrics goroutine has no step other than the fatal
exit of line 80. -/
theorem Supervisor.only_fatal_after_failed_bind (env : Ports) (s : Supervisor) (a : Action)
    (hf : s.metricsPc = MetricsPc.failed) (ha : a.ofMetricsGoroutine = true)
    (hne : a ≠ Action.metricsFatal) : Supervisor.step env s a = none := by
  cases a <;> simp_all [Supervisor.step, Action.ofMetricsGoroutine]

/-- While the exposition port is occupied, one step moves the metrics goroutine
along bind, failed bind, exit, and counts as one step of it only when it is its
own. -/
theorem Supervisor.step_metricsProgress (env : Ports) (hocc : env.expositionFree = false)
    (s s1 : Supervisor) (a : Action) (hstep : Supervisor.step env s a = some s1) (k : Nat)
    (hinv : s.metricsProgress k) :
    s1.metricsProgress (k + (if a.ofMetricsGoroutine then 1 else 0)) := by
  by_cases he : s.exited = true
  · rw [Supervisor.step_exited env s a he] at hstep
    cases hstep
  · unfold Supervisor.step at hstep
    rw [if_neg he] at hstep
    rcases hinv with ⟨rfl, h⟩ | ⟨rfl, h, hm⟩ | ⟨rfl, _, h⟩
    · cases hr : env.rpcFree <;> cases a <;> simp only at hstep <;> (try split at hstep) <;> cases hstep <;>
        simp_all [Supervisor.metricsProgress, Action.ofMetricsGoroutine]
    · cases hr : env.rpcFree <;> cases a <;> simp only at hstep <;> (try split at hstep) <;> cases hstep <;>
        simp_all [Supervisor.metricsProgress, Action.ofMetricsGoroutine]
    · exact absurd h he

theorem Supervisor.steps_metricsProgress (env : Ports) (hocc : env.expositionFree = false)
    (acts : List Action) (s s1 : Supervisor) (hsteps : Supervisor.steps env s acts = some s1)
    (k : Nat) (hinv : s.metricsProgress k) :
    s1.metricsProgress (k + metricsSteps acts) := by
  induction acts generalizing s k with
  | nil =>
    simp only [Supervisor.steps, Option.some.injEq] at hsteps
    subst hsteps
    simpa [metricsSteps] using hinv
  | cons a rest ih =>
    simp only [Supervisor.steps] at hsteps
    cases hstep : Supervisor.step env s a with
    | none => simp [hstep] at hsteps
    | some s2 =>
      simp only [hstep, Option.some_bind] at hsteps
      have h := ih s2 hsteps _ (Supervisor.step_metricsProgress env hocc s s2 a hstep k hinv)
      have hcount : k + metricsSteps (a :: rest)
          = k + (if a.ofMetricsGoroutine then 1 else 0) + metricsSteps rest := by
        simp only [metricsSteps, List.countP_cons]
        omega
      rw [hcount]
      exact h

/-- C8, amended: when the exposition port is occupied, in every run of the
process (1, 2) the exposition listener never serves and no scrape is served;
(3, 4, 5) the metrics goroutine takes at most two steps: its first is the bind,
which fails and leaves it at line 80, its second ends the process; (6) the
bind, whenever it is attempted, fails; (7) once the bind has failed the only
step the metrics goroutine has is the fatal exit of line 80, which ends the
process, after which no step runs; (8) after any exit no step runs, so nothing
more is served.  Remote calls served before that exit are neither excluded nor
required. -/
theorem exposition_bind_failure_is_fatal (env : Ports) (hocc : env.expositionFree = false)
    (acts : List Action) (s : Supervisor)
    (hs : Supervisor.steps env Supervisor.start acts = some s) :
    s.metricsPc ≠ MetricsPc.serving
    ∧ s.scraped = 0
    ∧ metricsSteps acts ≤ 2
    ∧ (s.metricsPc = MetricsPc.failed ↔ 1 ≤ metricsSteps acts)
    ∧ (metricsSteps acts = 2 → s.exited = true)
    ∧ (∀ s1, Supervisor.step env s Action.metricsListen = some s1 →
        s1.metricsPc = MetricsPc.failed)
    ∧ (s.metricsPc = MetricsPc.failed → s.exited = false →
        (∀ a : Action, a.ofMetricsGoroutine = true → a ≠ Action.metricsFatal →
          Supervisor.step env s a = none)
        ∧ ∃ s1, Supervisor.step env s Action.metricsFatal = some s1 ∧ s1.exited = true
          ∧ ∀ a, Supervisor.step env s1 a = none)
    ∧ (s.exited = true → ∀ a, Supervisor.step env s a = none) := by
  have hinv := Supervisor.steps_never_scrapes env hocc acts Supervisor.start s hs
    ⟨by decide, rfl⟩
  have hprog := Supervisor.steps_metricsProgress env hocc acts Supervisor.start s hs 0
    (Or.inl ⟨rfl, Or.inl rfl⟩)
  rw [Nat.zero_add] at hprog
  refine ⟨hinv.1, hinv.2, ?_, ?_, ?_, ?_, ?_, ?_⟩
  · rcases hprog with ⟨h, _⟩ | ⟨h, _⟩ | ⟨h, _⟩ <;> omega
  · rcases hprog with ⟨h, hpc⟩ | ⟨h, hpc, _⟩ | ⟨h, hpc, _⟩
    · constructor
      · intro hf
        rcases hpc with hpc | ⟨hpc, _⟩ <;> rw [hpc] at hf <;> cases hf
      · intro h1
        omega
    · exact ⟨fun _ => by omega, fun _ => hpc⟩
    · exact ⟨fun _ => by omega, fun _ => hpc⟩
  · intro h2
    rcases hprog with ⟨h, _⟩ | ⟨h, _⟩ | ⟨_, _, he⟩
    · omega
    · omega
    · exact he
  · intro s1 hstep
    unfold Supervisor.step at hstep
    split at hstep
    · cases hstep
    · simp only at hstep
      split at hstep
      · cases hstep
        simp [hocc]
      · cases hstep
  · intro hf he
    refine ⟨fun a ha hne => Supervisor.only_fatal_after_failed_bind env s a hf ha hne,
      { s with exited := true }, ?_, rfl, ?_⟩
    · simp [Supervisor.step, hf, he]
    · intro a
      exact Supervisor.step_exited env _ a rfl
  · intro he a
    exact Supervisor.step_exited env s a he

/-- C8 amended, at a concrete input: the run in which one remote call is served
before the exposition bind fails.  The goroutine has taken one step, a second
bind is not enabled, and the fatal exit ends the process. -/
theorem exposition_bind_failure_is_fatal_witness :
    (⟨MainPc.serving, MetricsPc.failed, false, 1, 0⟩ : Supervisor).scraped = 0
    ∧ metricsSteps
        [Action.spawn, Action.listen, Action.serve, Action.rpc, Action.metricsListen] ≤ 2
    ∧ Supervisor.step ⟨true, false⟩ ⟨MainPc.serving, MetricsPc.failed, false, 1, 0⟩
        Action.metricsListen = none
    ∧ ∃ s1, Supervisor.step ⟨true, false⟩ ⟨MainPc.serving, MetricsPc.failed, false, 1, 0⟩
          Action.metricsFatal = some s1 ∧ s1.exited = true
        ∧ ∀ a, Supervisor.step ⟨true, false⟩ s1 a = none :=
  have h := exposition_bind_failure_is_fatal ⟨true, false⟩ rfl
    [Action.spawn, Action.listen, Action.serve, Action.rpc, Action.metricsListen]
    ⟨MainPc.serving, MetricsPc.failed, false, 1, 0⟩ (by decide)
  ⟨h.2.1, h.2.2.1,
    (h.2.2.2.2.2.2.1 rfl rfl).1 Action.metricsListen rfl (by decide),
    (h.2.2.2.2.2.2.1 rfl rfl).2⟩

/-! ## Concurrent invocations -/

/-- An invocation that runs alone executes exactly the handler. -/
theorem Thread_alone_eq_SayHello (reg : Registry) (a : Option HelloRequest × Int × Int) :
    ((Conf.spawn reg [a]).run [0, 0, 0, 0, 0, 0]).reg = (SayHello reg a.2.1 a.2.2 a.1).1
    ∧ ((Conf.spawn reg [a]).run [0, 0, 0, 0, 0, 0]).threads.map Thread.result
        = [some (SayHello reg a.2.1 a.2.2 a.1).2] := by
  constructor <;>
    simp [Conf.spawn, Conf.run, Conf.step, Thread.step, Thread.spawn, SayHello]

theorem sum_map_set (f : Thread → Nat) (l : List Thread) (i : Nat) (t x : Thread)
    (h : l[i]? = some t) :
    ((l.set i x).map f).sum + f t = (l.map f).sum + f x := by
  induction l generalizing i with
  | nil => simp at h
  | cons y rest ih =>
    cases i with
    | zero =>
      simp only [List.getElem?_cons_zero, Option.some.injEq] at h
      subst h
      simp only [List.set_cons_zero, List.map_cons, List.sum_cons]
      omega
    | succ j =>
      simp only [List.getElem?_cons_succ] at h
      have := ih j h
      simp only [List.set_cons_succ, List.map_cons, List.sum_cons]
      omega

theorem Thread.step_counts_increment (t : Thread) (reg : Registry) :
    (t.step reg).2.requestsProcessed.value "SayHello" + t.incremented
      = reg.requestsProcessed.value "SayHello" + (t.step reg).1.incremented := by
  unfold Thread.step
  split <;> rename_i hpc <;>
    simp [Thread.incremented, hpc, CounterVec.value_Inc_same]

theorem Conf.step_keeps_count (c : Conf) (i : Nat) (base : Nat)
    (hinv : c.reg.requestsProcessed.value "SayHello"
      = base + (c.threads.map Thread.incremented).sum) :
    (c.step i).reg.requestsProcessed.value "SayHello"
      = base + ((c.step i).threads.map Thread.incremented).sum := by
  unfold Conf.step
  cases hget : c.threads[i]? with
  | none => simpa using hinv
  | some t =>
    simp only
    have h1 := Thread.step_counts_increment t c.reg
    have h2 := sum_map_set Thread.incremented c.threads i t (t.step c.reg).1 hget
    omega

theorem Conf.step_length (c : Conf) (i : Nat) :
    (c.step i).threads.length = c.threads.length := by
  unfold Conf.step
  cases c.threads[i]? with
  | none => rfl
  | some t => simp

theorem Conf.run_counts (schedule : List Nat) (c : Conf) (base : Nat)
    (hinv : c.reg.requestsProcessed.value "SayHello"
      = base + (c.threads.map Thread.incremented).sum) :
    (c.run schedule).reg.requestsProcessed.value "SayHello"
        = base + ((c.run schedule).threads.map Thread.incremented).sum
    ∧ (c.run schedule).threads.length = c.threads.length := by
  induction schedule generalizing c with
  | nil => exact ⟨hinv, rfl⟩
  | cons i rest ih =>
    have h := ih (c.step i) (Conf.step_keeps_count c i base hinv)
    simp only [Conf.run, List.foldl_cons] at h ⊢
    exact ⟨h.1, h.2.trans (Conf.step_length c i)⟩

theorem sum_incremented_of_done (l : List Thread) (h : ∀ t ∈ l, t.pc = 6) :
    (l.map Thread.incremented).sum = l.length := by
  induction l with
  | nil => rfl
  | cons t rest ih =>
    have ht : t.pc = 6 := h t (List.mem_cons_self _ _)
    have hr := ih (fun u hu => h u (List.mem_cons_of_mem _ hu))
    simp only [List.map_cons, List.sum_cons, List.length_cons, hr, Thread.incremented, ht]
    simp
    omega

theorem sum_incremented_spawn (calls : List (Option HelloRequest × Int × Int)) :
    ((calls.map Thread.spawn).map Thread.incremented).sum = 0 := by
  induction calls with
  | nil => rfl
  | cons a rest ih =>
    simp only [List.map_cons, List.sum_cons, ih]
    rfl

theorem Thread.step_pc (t : Thread) (reg : Registry) : (t.step reg).1.pc = nextPc t.pc := by
  obtain ⟨req, now1, now2, pc, start, reply, duration, result⟩ := t
  rcases pc with _ | _ | _ | _ | _ | _ | n
  all_goals first
    | (simp [Thread.step, nextPc]; done)
    | (simp only [Thread.step, nextPc]
       rw [if_neg (by omega)])

theorem getElem?_append_cons_length (pre post : List Thread) (t : Thread) :
    (pre ++ t :: post)[pre.length]? = some t := by
  induction pre with
  | nil => simp
  | cons x rest ih => simpa using ih

theorem set_append_cons_length (pre post : List Thread) (t u : Thread) :
    (pre ++ t :: post).set pre.length u = pre ++ u :: post := by
  induction pre with
  | nil => rfl
  | cons x rest ih => simp [ih]

theorem Conf.step_pcs_at (c : Conf) (pre post : List Thread) (t : Thread)
    (hc : c.threads = pre ++ t :: post) :
    ∃ u, (c.step pre.length).threads = pre ++ u :: post ∧ u.pc = nextPc t.pc := by
  refine ⟨(t.step c.reg).1, ?_, Thread.step_pc t c.reg⟩
  have hget : c.threads[pre.length]? = some t := by
    rw [hc]
    exact getElem?_append_cons_length pre post t
  simp only [Conf.step, hget]
  rw [hc]
  exact set_append_cons_length pre post t _

theorem Conf.run_replicate (n : Nat) (c : Conf) (pre post : List Thread) (t : Thread)
    (hc : c.threads = pre ++ t :: post) :
    ∃ u, (c.run (List.replicate n pre.length)).threads = pre ++ u :: post
      ∧ u.pc = nextPc^[n] t.pc := by
  induction n generalizing c t with
  | zero => exact ⟨t, hc, rfl⟩
  | succ k ih =>
    obtain ⟨u1, h1, p1⟩ := Conf.step_pcs_at c pre post t hc
    obtain ⟨u, hu, pu⟩ := ih (c.step pre.length) u1 h1
    refine ⟨u, ?_, ?_⟩
    · simpa [Conf.run, List.replicate_succ] using hu
    · rw [pu, p1, Function.iterate_succ_apply]

theorem Conf.run_block (c : Conf) (pre post : List Thread) (t : Thread)
    (hc : c.threads = pre ++ t :: post) (ht : t.pc = 0) :
    ∃ u, (c.run (List.replicate 6 pre.length)).threads = pre ++ u :: post ∧ u.pc = 6 := by
  obtain ⟨u, hu, pu⟩ := Conf.run_replicate 6 c pre post t hc
  refine ⟨u, hu, ?_⟩
  rw [pu, ht]
  rfl

theorem Conf.run_append (c : Conf) (s1 s2 : List Nat) :
    c.run (s1 ++ s2) = (c.run s1).run s2 := by
  simp [Conf.run, List.foldl_append]

theorem Conf.run_sequential (post : List Thread) (hpost : ∀ t ∈ post, t.pc = 0)
    (c : Conf) (pre : List Thread) (hpre : ∀ t ∈ pre, t.pc = 6)
    (hc : c.threads = pre ++ post) :
    ∀ t ∈ (c.run (sequentialSchedule pre.length post.length)).threads, t.pc = 6 := by
  induction post generalizing c pre with
  | nil =>
    intro t ht
    simp only [sequentialSchedule, List.length_nil, Conf.run, List.foldl_nil, hc,
      List.append_nil] at ht
    exact hpre t ht
  | cons t0 rest ih =>
    obtain ⟨u, hu, hpc⟩ := Conf.run_block c pre rest t0 hc (hpost t0 (List.mem_cons_self _ _))
    have hthreads : (c.run (List.replicate 6 pre.length)).threads = (pre ++ [u]) ++ rest := by
      rw [hu]
      simp
    have hpre2 : ∀ t ∈ pre ++ [u], t.pc = 6 := by
      intro t ht
      rcases List.mem_append.1 ht with h | h
      · exact hpre t h
      · rw [List.mem_singleton.1 h]
        exact hpc
    have h := ih (fun t ht => hpost t (List.mem_cons_of_mem _ ht)) _ (pre ++ [u]) hpre2 hthreads
    simp only [List.length_append, List.length_singleton] at h
    simp only [sequentialSchedule, List.length_cons, Conf.run_append]
    exact h

/-- C9: N invocations of SayHello run concurrently on a shared registry, the
scheduler interleaving their statements in any order, each increment being one
atomic step.  There are schedules under which all N invocations return, and
under every schedule, whenever all N invocations have returned, the request
counter labelled "SayHello" has grown by exactly N (so it equals N from the
registry of a fresh process). -/
theorem concurrent_invocations_counted (reg : Registry)
    (calls : List (Option HelloRequest × Int × Int)) :
    (∃ schedule, ∀ t ∈ ((Conf.spawn reg calls).run schedule).threads, t.pc = 6)
    ∧ (∀ schedule : List Nat,
        (∀ t ∈ ((Conf.spawn reg calls).run schedule).threads, t.pc = 6) →
        ((Conf.spawn reg calls).run schedule).threads.length = calls.length
        ∧ ((Conf.spawn reg calls).run schedule).reg.requestsProcessed.value "SayHello"
          = reg.requestsProcessed.value "SayHello" + calls.length) := by
  constructor
  · refine ⟨sequentialSchedule 0 (calls.map Thread.spawn).length, ?_⟩
    have hpost : ∀ t ∈ calls.map Thread.spawn, t.pc = 0 := by
      intro t ht
      obtain ⟨a, _, rfl⟩ := List.mem_map.1 ht
      rfl
    exact Conf.run_sequential (calls.map Thread.spawn) hpost (Conf.spawn reg calls) []
      (fun t ht => by simp at ht) rfl
  · intro schedule hdone
    have hinit : (Conf.spawn reg calls).reg.requestsProcessed.value "SayHello"
        = reg.requestsProcessed.value "SayHello"
          + ((Conf.spawn reg calls).threads.map Thread.incremented).sum := by
      simp only [Conf.spawn, sum_incremented_spawn, add_zero]
    obtain ⟨hval, hlen⟩ := Conf.run_counts schedule (Conf.spawn reg calls) _ hinit
    have hlen2 : ((Conf.spawn reg calls).run schedule).threads.length = calls.length := by
      rw [hlen]
      simp [Conf.spawn]
    refine ⟨hlen2, ?_⟩
    rw [hval, sum_incremented_of_done _ hdone, hlen2]

/-- C9, at a concrete input: two invocations on a fresh registry whose
statements alternate, the second one incrementing first. -/
theorem concurrent_invocations_counted_witness :
    ((Conf.spawn (Registry.fresh exampleServerMetrics)
        [(some ⟨"a"⟩, 0, 5), (some ⟨"b"⟩, 1, 4)]).run
        [0, 1, 1, 0, 1, 0, 1, 0, 0, 1, 1, 0]).reg.requestsProcessed.value "SayHello"
      = (Registry.fresh exampleServerMetrics).requestsProcessed.value "SayHello" + 2 :=
  ((concurrent_invocations_counted (Registry.fresh exampleServerMetrics)
    [(some ⟨"a"⟩, 0, 5), (some ⟨"b"⟩, 1, 4)]).2 [0, 1, 1, 0, 1, 0, 1, 0, 0, 1, 1, 0]
    (by decide)).2

end GreeterServer
